import Mathlib

/-!
Verification of the node-monitoring bot (src/bot.py).

The Python source is shallowly embedded: the pure status-derivation logic of
`auto_update` / `menu_check`, the helper `last_allowed`, the per-subscription
body of `alert_check`, the retry loops of `fetch_txs` / `fetch_balance`
(parametrised by the outcome of each upstream attempt), and the persisted
subscription store (`load_data`/`save_data` dictionary, modelled as an
association list passed in and out of every operation).

Times are integer seconds; `now - t` in the Python code is the elapsed
`timedelta` converted to seconds.
-/

set_option autoImplicit false

namespace Bot

/-- One upstream transaction as consumed by the bot: `tx.get("input","")`,
`tx.get("isError")` (absent key gives `none`), and `int(tx["timeStamp"])`. -/
structure Tx where
  input : Option String
  isError : Option String
  timeStamp : Int
deriving DecidableEq, Repr

/-- `tx.get("input","")`: the input field with default empty string. -/
def Tx.inputStr (tx : Tx) : String := tx.input.getD ""

/-- Python `s.lower()` (ASCII, as in the hex strings the bot handles),
defined structurally so the kernel can evaluate it. -/
def strToLower (s : String) : String := ⟨s.data.map Char.toLower⟩

/-- Python `s.startswith(p)`, defined structurally. -/
def strStartsWith (s p : String) : Bool := p.data.isPrefixOf s.data

/-- Substring occurrence over character lists. -/
def listContainsSub (pat : List Char) : List Char → Bool
  | [] => pat.isEmpty
  | c :: rest => pat.isPrefixOf (c :: rest) || listContainsSub pat rest

/-- Python `pat in s`, defined structurally. -/
def strContains (s pat : String) : Bool := listContainsSub pat.data s.data

/-- The fixed selector-to-name table `allowed_methods` of src/bot.py. -/
def allowed_methods : List (String × String) :=
  [("0xf21a494b", "Commit"), ("0x65c815a5", "Precommit"),
   ("0xca6726d9", "Prepare"), ("0x198e2b8a", "Create")]

/-- The inner loop `for k,v in allowed_methods.items(): if m.startswith(k): return v`. -/
def findAllowed (m : String) : Option String :=
  (allowed_methods.find? (fun kv => strStartsWith m kv.1)).map (fun kv => kv.2)

/-- Python `"create" in m`: substring containment test. -/
def containsCreate (m : String) : Bool := strContains m "create"

/-- `last_allowed(txs)` of src/bot.py lines 166-174: scan newest-to-oldest,
skip heartbeat-prefixed inputs and failed transactions, return the name from
`allowed_methods` on a selector match, else `Create` when the lowercased
input contains the substring `create`; `None` when nothing qualifies. -/
def last_allowed : List Tx → Option (String × Int)
  | [] => none
  | tx :: rest =>
    let m := strToLower tx.inputStr
    if strStartsWith m "0x5c36b186" then last_allowed rest
    else if tx.isError ≠ some "0" then last_allowed rest
    else
      match findAllowed m with
      | some v => some (v, tx.timeStamp)
      | none =>
        if containsCreate m then some ("Create", tx.timeStamp)
        else last_allowed rest

/-- Health-grid symbols: green square, red square, white square. -/
inductive HealthSym where
  | OK
  | FAIL
  | UNKNOWN
deriving DecidableEq, Repr

/-- `groups=[last25[i*5:(i+1)*5] for i in range(5)]` (line 203). -/
def healthGroups (txs : List Tx) : List (List Tx) :=
  let last25 := txs.take 25
  (List.range 5).map (fun i => (last25.drop (i * 5)).take 5)

/-- The symbol of one group, line 204: green if `all(tx.get("isError")=="0")`
(vacuously true on an empty group), else red if the group is non-empty,
else white. -/
def healthGroupSym (g : List Tx) : HealthSym :=
  if g.all (fun tx => tx.isError == some "0") then .OK
  else if g ≠ [] then .FAIL
  else .UNKNOWN

/-- The five-symbol health grid of line 204 / line 372. -/
def healthGrid (txs : List Tx) : List HealthSym :=
  (healthGroups txs).map healthGroupSym

/-- Spec-side group symbol, following the spec words: UNKNOWN if the group is
empty; OK if every transaction in the group has `isError` success; FAIL
otherwise. Used only to compare with `healthGroupSym` from the source. -/
def healthGroupSymSpec (g : List Tx) : HealthSym :=
  if g = [] then .UNKNOWN
  else if g.all (fun tx => tx.isError == some "0") then .OK
  else .FAIL

/-- Spec-side health grid assembled from `healthGroupSymSpec`. -/
def healthGridSpec (txs : List Tx) : List HealthSym :=
  (healthGroups txs).map healthGroupSymSpec

/-- `all(tx.get("input","").lower().startswith("0x5c36b186") for tx in last25)`
(line 193 / line 364). -/
def stalledTxs (txs : List Tx) : Bool :=
  (txs.take 25).all (fun tx => strStartsWith (strToLower tx.inputStr) "0x5c36b186")

/-- Online/offline verdict, line 191 / line 362:
`now_wib()-datetime.fromtimestamp(lt,WIB) <= timedelta(minutes=5)` on the
newest transaction; an empty list takes the `else` branch (Offline). -/
def onlineState (txs : List Tx) (now : Int) : Bool :=
  match txs with
  | [] => false
  | t :: _ => now - t.timeStamp ≤ 300

inductive OnlineSt where
  | Online
  | Offline
deriving DecidableEq, Repr

inductive StallSt where
  | Stalled
  | Normal
  | NA
deriving DecidableEq, Repr

/-- Health field of a rendered report: either the joined symbol grid or the
literal `"No tx"` placeholder set on the empty-list branch (line 206). -/
inductive Health where
  | grid (syms : List HealthSym)
  | noTx
deriving DecidableEq, Repr

/-- Diagnostic note: `"Transaction: last successful <m> was <age>"`,
`"Transaction: none"`, or the empty-list placeholder `"Transaction: N/A"`. -/
inductive NoteV where
  | lastSuccessful (method : String) (ts : Int)
  | noneProductive
  | na
deriving DecidableEq, Repr

/-- The pure status report derived per address. -/
structure StatusReport where
  online : OnlineSt
  health : Health
  stall : StallSt
  note : NoteV
deriving DecidableEq, Repr

/-- The per-address status computation of `auto_update` (src/bot.py lines
189-206), identical in `menu_check` (lines 360-375): online verdict from the
newest timestamp, stall flag over the last 25 transactions, diagnostic note
from `last_allowed` in both stall branches, health grid; the empty-list
branch yields Offline / `"No tx"` / `N/A` / `N/A`. -/
def auto_update_status (txs : List Tx) (now : Int) : StatusReport :=
  match txs with
  | [] => ⟨.Offline, .noTx, .NA, .na⟩
  | t :: _ =>
    let st := if now - t.timeStamp ≤ 300 then OnlineSt.Online else OnlineSt.Offline
    let stall := if stalledTxs txs then StallSt.Stalled else StallSt.Normal
    let note :=
      match last_allowed txs with
      | some (v, ts) => NoteV.lastSuccessful v ts
      | none => NoteV.noneProductive
    ⟨st, .grid (healthGrid txs), stall, note⟩

/-- The alert messages `alert_check` can send for one subscription. -/
inductive Alert where
  | noTxIn15m
  | noTxAtAll
  | stallAlert (method : String) (ts : Int)
deriving DecidableEq, Repr

/-- The per-subscription body of `alert_check` (src/bot.py lines 223-233):
with transactions present, alert when the newest is older than 15 minutes
(then `continue`), otherwise alert when `last_allowed` yields a timestamp
older than 15 minutes; with no transactions, alert `no tx at all`. -/
def alert_check_for (txs : List Tx) (now : Int) : List Alert :=
  match txs with
  | [] => [.noTxAtAll]
  | t :: _ =>
    if now - t.timeStamp > 900 then [.noTxIn15m]
    else
      match last_allowed txs with
      | some (v, ts) => if now - ts > 900 then [.stallAlert v ts] else []
      | none => []

/-- Outcome of one attempt of the transaction-list request: an exception
(network error, timeout, JSON failure), a `result` field that is not a list,
or a list payload. -/
inductive TxAttempt where
  | exn
  | nonList
  | ok (txs : List Tx)
deriving DecidableEq, Repr

/-- Whether an attempt succeeded with a list payload. -/
def TxAttempt.isOk : TxAttempt → Bool
  | .ok _ => true
  | _ => false

/-- The loop body of `fetch_txs` (src/bot.py lines 141-151) over the remaining
attempt outcomes, with `n` the 1-based attempt number. Returns the result
and the list of backoff sleeps performed (`time.sleep(3*(i+1))` sits in the
`except` handler only; a non-list `result` falls through without sleeping). -/
def fetchTxsGo : List TxAttempt → Nat → List Tx × List Nat
  | [], _ => ([], [])
  | .ok txs :: _, _ => (txs, [])
  | .nonList :: rest, n => fetchTxsGo rest (n + 1)
  | .exn :: rest, n =>
    let p := fetchTxsGo rest (n + 1)
    (p.1, 3 * n :: p.2)

/-- `fetch_txs(addr)`: three attempts (`for i in range(3)`), returning `[]`
after exhaustion. -/
def fetch_txs (a1 a2 a3 : TxAttempt) : List Tx × List Nat :=
  fetchTxsGo [a1, a2, a3] 1

/-- Outcome of one attempt of the balance request: an exception, a `result`
string that `int()` rejects, or a numeric raw (wei) value. -/
inductive BalAttempt where
  | exn
  | nonNumeric
  | ok (wei : Int)
deriving DecidableEq, Repr

/-- Whether a balance attempt succeeded with a numeric result. -/
def BalAttempt.isOk : BalAttempt → Bool
  | .ok _ => true
  | _ => false

/-- The loop body of `fetch_balance` (src/bot.py lines 129-139): a successful
attempt returns `int(result)/1e18`; an exception or a non-numeric result
(where `int(r)` raises) sleeps `3*(i+1)` and retries; `0.0` after
exhaustion. -/
def fetchBalanceGo : List BalAttempt → Nat → Rat × List Nat
  | [], _ => (0, [])
  | .ok w :: _, _ => ((w : Rat) / 1000000000000000000, [])
  | .exn :: rest, n =>
    let p := fetchBalanceGo rest (n + 1)
    (p.1, 3 * n :: p.2)
  | .nonNumeric :: rest, n =>
    let p := fetchBalanceGo rest (n + 1)
    (p.1, 3 * n :: p.2)

/-- `fetch_balance(addr)`: three attempts, `0.0` after exhaustion. -/
def fetch_balance (b1 b2 b3 : BalAttempt) : Rat × List Nat :=
  fetchBalanceGo [b1, b2, b3] 1

/-! ### The persisted subscription store -/

/-- A stored subscription record `{"address": w, "label": lbl}`. -/
structure Sub where
  address : String
  label : String
deriving DecidableEq, Repr

/-- A stored entry: legacy plain address string, or a record. -/
inductive Entry where
  | plain (a : String)
  | dict (s : Sub)
deriving DecidableEq, Repr

/-- `i if isinstance(i,str) else i["address"]`. -/
def Entry.addr : Entry → String
  | .plain a => a
  | .dict s => s.address

/-- `MAX_ADDRESS_PER_CHAT` (env default 5). -/
def MAX_ADDRESS_PER_CHAT : Nat := 5

/-- Per-chat record `{"addresses": [...], "auto_update_interval": iv}`. -/
structure ChatInfo where
  addresses : List Entry
  interval : Rat
deriving DecidableEq, Repr

/-- The `data.json` dictionary, keyed by chat id. -/
abbrev Store := List (Nat × ChatInfo)

/-- The default record of `get_chat`:
`{"addresses":[], "auto_update_interval":300}`. -/
def defaultChat : ChatInfo := ⟨[], 300⟩

/-- Python dictionary assignment `d[k]=info`: replace the existing binding or
append a fresh one. -/
def setKey : Store → Nat → ChatInfo → Store
  | [], cid, info => [(cid, info)]
  | (k, v) :: rest, cid, info =>
    if k = cid then (cid, info) :: rest else (k, v) :: setKey rest cid info

/-- Python dictionary lookup `d.get(k)`. -/
def lookupStore : Store → Nat → Option ChatInfo
  | [], _ => none
  | (k, v) :: rest, cid => if k = cid then some v else lookupStore rest cid

/-- `get_chat(chat_id)` read as a pure lookup with default. -/
def load_chat (d : Store) (cid : Nat) : ChatInfo :=
  (lookupStore d cid).getD defaultChat

/-- `get_chat`: loads the store and returns the record; no save occurs, so the
persisted collection comes back unchanged. -/
def get_chat (d : Store) (cid : Nat) : ChatInfo × Store :=
  (load_chat d cid, d)

/-- `get_addresses(chat_id)`. -/
def get_addresses (d : Store) (cid : Nat) : List Entry × Store :=
  ((load_chat d cid).addresses, d)

/-- `get_interval(chat_id)`. -/
def get_interval (d : Store) (cid : Nat) : Rat × Store :=
  ((load_chat d cid).interval, d)

/-- `set_chat(chat_id, info)`: load-modify-persist of the full collection. -/
def set_chat (d : Store) (cid : Nat) (info : ChatInfo) : Store :=
  setKey d cid info

/-- `set_addresses(chat_id, addrs)`. -/
def set_addresses (d : Store) (cid : Nat) (addrs : List Entry) : Store :=
  set_chat d cid ⟨addrs, (load_chat d cid).interval⟩

/-- `set_interval(chat_id, iv)`. -/
def set_interval (d : Store) (cid : Nat) (iv : Rat) : Store :=
  set_chat d cid ⟨(load_chat d cid).addresses, iv⟩

/-- Result reported by `add_addr_recv`. -/
inductive AddResult where
  | badAddress
  | duplicate
  | maxReached
  | added
deriving DecidableEq, Repr

/-- `add_addr_recv` (src/bot.py lines 261-278) with the message text already
split at the first comma into address part `a` and label `lbl`: lowercase,
reject unless the result starts with `0x` and has length 42, reject a
duplicate address, reject at capacity, otherwise append the lowercased
record and persist. -/
def add_addr_recv (d : Store) (cid : Nat) (a lbl : String) : AddResult × Store :=
  if ¬ strStartsWith (strToLower a) "0x" ∨ (strToLower a).length ≠ 42 then (.badAddress, d)
  else if (load_chat d cid).addresses.any (fun e => e.addr == strToLower a) then
    (.duplicate, d)
  else if MAX_ADDRESS_PER_CHAT ≤ (load_chat d cid).addresses.length then
    (.maxReached, d)
  else
    (.added,
      set_addresses d cid
        ((load_chat d cid).addresses ++ [Entry.dict ⟨strToLower a, lbl⟩]))

/-- `w+(f" ({l})" if l else "")` as built in `rm_addr_recv` (line 299),
with `w,l=(i,i)` for a legacy plain entry. -/
def Entry.disp : Entry → String
  | .plain a => a ++ (if a ≠ "" then " (" ++ a ++ ")" else "")
  | .dict s => s.address ++ (if s.label ≠ "" then " (" ++ s.label ++ ")" else "")

/-- `rm_addr_recv` (src/bot.py lines 291-309) for choice `ch`: keep the
entries whose display differs from `ch`; persist only when a match was
found. -/
def rm_addr_recv (d : Store) (cid : Nat) (ch : String) : Store :=
  if (load_chat d cid).addresses.any (fun e => e.disp == ch) then
    set_addresses d cid ((load_chat d cid).addresses.filter (fun e => e.disp ≠ ch))
  else d

/-- Result reported by `set_delay_recv`. -/
inductive SetDelayResult where
  | ok
  | invalid
deriving DecidableEq, Repr

/-- `set_delay_recv` (src/bot.py lines 244-255): `none` stands for a message
`float()` cannot parse; a value below `MIN_AUTO_UPDATE_INTERVAL` (60) raises
and is caught, leaving the store untouched; otherwise `set_interval`
persists the value as given. -/
def set_delay_recv (d : Store) (cid : Nat) (v : Option Rat) : SetDelayResult × Store :=
  match v with
  | none => (.invalid, d)
  | some v => if v < 60 then (.invalid, d) else (.ok, set_interval d cid v)

/-- Stores reachable from the empty `data.json` through the mutating
command handlers. -/
inductive Reach : Store → Prop where
  | init : Reach []
  | add (d : Store) (cid : Nat) (a lbl : String) :
      Reach d → Reach (add_addr_recv d cid a lbl).2
  | remove (d : Store) (cid : Nat) (ch : String) :
      Reach d → Reach (rm_addr_recv d cid ch)
  | setDelay (d : Store) (cid : Nat) (v : Option Rat) :
      Reach d → Reach (set_delay_recv d cid v).2

/-- The per-record invariant: at most 5 subscriptions, no duplicate
addresses. -/
def InfoOk (info : ChatInfo) : Prop :=
  info.addresses.length ≤ MAX_ADDRESS_PER_CHAT ∧
    (info.addresses.map Entry.addr).Nodup

/-- The store invariant: every persisted record satisfies `InfoOk`. -/
def Inv (d : Store) : Prop := ∀ p ∈ d, InfoOk p.2

/-! ### Fixtures and characterisation helpers -/

/-- Whether a transaction can determine the note of `last_allowed`: not
heartbeat-prefixed, successful, and either matching a selector of
`allowed_methods` or containing the substring `create`. -/
def productiveTx (tx : Tx) : Bool :=
  (!(strStartsWith (strToLower tx.inputStr) "0x5c36b186")) &&
    (tx.isError == some "0") &&
    ((findAllowed (strToLower tx.inputStr)).isSome ||
      containsCreate (strToLower tx.inputStr))

/-- The method name a note-determining transaction yields. -/
def productiveName (tx : Tx) : String :=
  match findAllowed (strToLower tx.inputStr) with
  | some v => v
  | none => "Create"

/-- Three successful transactions: fewer than 25, so the last four health
groups are empty. -/
def exC1 : List Tx :=
  [⟨some "0xaa", some "0", 10⟩, ⟨some "0xbb", some "0", 9⟩,
   ⟨some "0xcc", some "0", 8⟩]

/-- A non-stalled window: a fresh non-heartbeat newest transaction over an
old Commit transaction. -/
def exC2 : List Tx :=
  [⟨some "0xdeadbeef", some "0", 1940⟩, ⟨some "0xf21a494b77", some "0", 1000⟩]

/-- A successful transaction whose input contains the substring `create` but
starts with no productive selector. -/
def txC3 : Tx := ⟨some "qcreate", some "0", 42⟩

/-- A transaction payload used for the fetch scenarios. -/
def txA : Tx := ⟨some "0xaa", some "0", 5⟩

/-- A valid lowercase address: `0x` followed by forty `a` characters. -/
def addrA : String := "0xaaaaaaaaaaaaaaaaaaaaaaaaaaaaaaaaaaaaaaaa"

/-- The same address with uppercase letters. -/
def addrAup : String := "0XAAAAAAAAAAAAAAAAAAAAAAAAAAAAAAAAAAAAAAAA"

/-- A store whose tenant 9 already holds five subscriptions. -/
def d5 : Store :=
  [(9, ⟨[Entry.plain "w1", Entry.plain "w2", Entry.plain "w3",
         Entry.plain "w4", Entry.plain "w5"], 300⟩)]

/-! ### Store lemmas -/

theorem lookupStore_setKey_self (d : Store) (cid : Nat) (info : ChatInfo) :
    lookupStore (setKey d cid info) cid = some info := by
  induction d with
  | nil => simp [setKey, lookupStore]
  | cons p rest ih =>
    obtain ⟨k, v⟩ := p
    by_cases hk : k = cid
    · subst hk
      simp [setKey, lookupStore]
    · simp [setKey, lookupStore, hk, ih]

theorem load_chat_setKey_self (d : Store) (cid : Nat) (info : ChatInfo) :
    load_chat (setKey d cid info) cid = info := by
  simp [load_chat, lookupStore_setKey_self]

theorem lookupStore_mem {d : Store} {cid : Nat} {v : ChatInfo}
    (h : lookupStore d cid = some v) : (cid, v) ∈ d := by
  induction d with
  | nil => simp [lookupStore] at h
  | cons p rest ih =>
    obtain ⟨k, w⟩ := p
    by_cases hk : k = cid
    · subst hk
      simp [lookupStore] at h
      simp [h]
    · simp [lookupStore, hk] at h
      exact List.mem_cons_of_mem _ (ih h)

theorem mem_setKey {d : Store} {cid : Nat} {info : ChatInfo} {p : Nat × ChatInfo}
    (h : p ∈ setKey d cid info) : p = (cid, info) ∨ p ∈ d := by
  induction d with
  | nil =>
    simp [setKey] at h
    exact Or.inl h
  | cons q rest ih =>
    obtain ⟨k, v⟩ := q
    by_cases hk : k = cid
    · subst hk
      simp only [setKey, if_pos rfl] at h
      rcases List.mem_cons.1 h with h1 | h1
      · exact Or.inl h1
      · exact Or.inr (List.mem_cons_of_mem _ h1)
    · simp only [setKey, if_neg hk] at h
      rcases List.mem_cons.1 h with h1 | h1
      · exact Or.inr (List.mem_cons.2 (Or.inl h1))
      · rcases ih h1 with h2 | h2
        · exact Or.inl h2
        · exact Or.inr (List.mem_cons_of_mem _ h2)

theorem InfoOk_default : InfoOk defaultChat := by
  constructor
  · simp [defaultChat, MAX_ADDRESS_PER_CHAT]
  · simp [defaultChat]

theorem InfoOk_load {d : Store} (hInv : Inv d) (cid : Nat) :
    InfoOk (load_chat d cid) := by
  unfold load_chat
  cases h : lookupStore d cid with
  | none => exact InfoOk_default
  | some info => exact hInv (cid, info) (lookupStore_mem h)

theorem Inv_setKey {d : Store} {cid : Nat} {info : ChatInfo}
    (hInv : Inv d) (hinfo : InfoOk info) : Inv (setKey d cid info) := by
  intro p hp
  rcases mem_setKey hp with h | h
  · rw [h]
    exact hinfo
  · exact hInv p h

/-! ### C1: health grid -/

/-- C1: the claim says an empty health group renders as UNKNOWN, never OK.
On three successful transactions the code renders all five groups OK: the
vacuous `all()` on an empty group takes the green branch of line 204, so the
white-square branch is unreachable and the last four (empty) groups are
green, diverging from the spec-faithful `healthGridSpec`. -/
theorem C1_empty_groups_render_OK :
    healthGrid exC1 = [.OK, .OK, .OK, .OK, .OK] ∧
      healthGridSpec exC1 = [.OK, .UNKNOWN, .UNKNOWN, .UNKNOWN, .UNKNOWN] ∧
      (healthGroups exC1).map List.length = [3, 0, 0, 0, 0] := by
  refine ⟨?_, ?_, ?_⟩ <;> rfl

/-! ### C4: empty transaction list -/

/-- C4 counterexample: on the empty list the analysis yields Offline, stall
`N/A` and note `N/A` as claimed, but the health field is the literal
`"No tx"` placeholder of line 206, not a grid of five UNKNOWN symbols. -/
theorem C4_counterexample :
    auto_update_status [] 0 = ⟨.Offline, .noTx, .NA, .na⟩ ∧
      (auto_update_status [] 0).health ≠
        Health.grid [.UNKNOWN, .UNKNOWN, .UNKNOWN, .UNKNOWN, .UNKNOWN] := by
  exact ⟨rfl, by decide⟩

/-- C4 amended: for the empty transaction list and any current time, the
analysis yields Offline, the `"No tx"` health placeholder, stall state `N/A`
and note `N/A`. -/
theorem C4_empty_analysis (now : Int) :
    auto_update_status [] now = ⟨.Offline, .noTx, .NA, .na⟩ := rfl

/-! ### C5: online threshold -/

/-- C5 counterexample: a newest-transaction age of exactly 300 seconds is
Online in the code (the comparison of line 191 is non-strict), while the
claim requires strictly less than 300 seconds. -/
theorem C5_counterexample :
    onlineState [⟨some "0xaa", some "0", 0⟩] 300 = true ∧
      ¬ ((300 : Int) - 0 < 300) := by
  exact ⟨rfl, by decide⟩

/-- C5 amended: the derived state is Online iff the list is non-empty and
the age of the newest transaction is at most 300 seconds (non-strict); an
empty list is always Offline. -/
theorem C5_online_iff (txs : List Tx) (now : Int) :
    onlineState txs now = true ↔
      ∃ t rest, txs = t :: rest ∧ now - t.timeStamp ≤ 300 := by
  cases txs with
  | nil => simp [onlineState]
  | cons t rest => simp [onlineState]

/-! ### C2: alert conditions -/

/-- C2 counterexample: on `exC2` at time 2000 the window is not stalled and
the newest transaction is only 60 seconds old, yet `alert_check` emits a
stall alert because the last productive transaction is 1000 seconds old —
the code never consults the stalled flag (src/bot.py lines 229-231). -/
theorem C2_counterexample :
    alert_check_for exC2 2000 = [.stallAlert "Commit" 1000] ∧
      stalledTxs exC2 = false ∧
      exC2.head?.map Tx.timeStamp = some 1940 ∧
      ¬ ((2000 : Int) - 1940 > 900) ∧ exC2 ≠ [] := by
  refine ⟨by decide, by decide, by decide, by decide, by decide⟩

/-- C2 amended: an alert is emitted iff there are no transactions at all, or
the newest transaction is older than 15 minutes, or `last_allowed` yields a
productive transaction older than 15 minutes (whether or not the window is
stalled); and at most one alert is emitted per subscription per firing. -/
theorem C2_alert_conditions (txs : List Tx) (now : Int) :
    (alert_check_for txs now ≠ [] ↔
      txs = [] ∨ (∃ t rest, txs = t :: rest ∧ now - t.timeStamp > 900) ∨
        ∃ v ts, last_allowed txs = some (v, ts) ∧ now - ts > 900) ∧
      (alert_check_for txs now).length ≤ 1 := by
  cases txs with
  | nil => simp [alert_check_for]
  | cons t rest =>
    by_cases h1 : now - t.timeStamp > 900
    · simp [alert_check_for, h1]
    · cases hls : last_allowed (t :: rest) with
      | none => simp [alert_check_for, h1, hls]
      | some p =>
        obtain ⟨v, ts⟩ := p
        by_cases h2 : now - ts > 900
        · simp [alert_check_for, h1, hls, h2]
          exact ⟨v, ts, ⟨rfl, rfl⟩, by omega⟩
        · simp [alert_check_for, h1, hls, h2]
          omega

/-! ### C3: diagnostic note -/

/-- C3 counterexample: a successful transaction whose input is `qcreate`
matches none of the four productive selectors, yet it determines the note:
the fallback `if "create" in m` of line 173 returns `Create`. Under the
claim `last_allowed` would have to return `none` here. -/
theorem C3_counterexample :
    last_allowed [txC3] = some ("Create", 42) ∧
      allowed_methods.all (fun kv => !(strStartsWith (strToLower txC3.inputStr) kv.1)) = true ∧
      txC3.isError = some "0" := by
  refine ⟨by decide, by decide, rfl⟩

/-- C3 amended: the note is determined by the first transaction (newest to
oldest) that is not heartbeat-prefixed, has `isError` success, and either
starts with a selector of the fixed productive set or contains the substring
`create` in its lowercased input (the latter yielding name `Create`); if no
such transaction exists the note is the no-productive value. -/
theorem C3_note_scan (txs : List Tx) :
    last_allowed txs =
      (txs.find? productiveTx).map (fun tx => (productiveName tx, tx.timeStamp)) := by
  induction txs with
  | nil => rfl
  | cons tx rest ih =>
    by_cases h1 : strStartsWith (strToLower tx.inputStr) "0x5c36b186"
    · have hfind : List.find? productiveTx (tx :: rest) = List.find? productiveTx rest :=
        List.find?_cons_of_neg _ (by simp [productiveTx, h1])
      simp [last_allowed, h1, hfind, ih]
    · by_cases h2 : tx.isError = some "0"
      · cases hfa : findAllowed (strToLower tx.inputStr) with
        | some v =>
          have hp : productiveTx tx = true := by simp [productiveTx, h1, h2, hfa]
          have hfind : List.find? productiveTx (tx :: rest) = some tx :=
            List.find?_cons_of_pos _ hp
          simp [last_allowed, h1, h2, hfa, hfind, productiveName]
        | none =>
          by_cases h3 : containsCreate (strToLower tx.inputStr)
          · have hp : productiveTx tx = true := by
              simp [productiveTx, h1, h2, hfa, h3]
            have hfind : List.find? productiveTx (tx :: rest) = some tx :=
              List.find?_cons_of_pos _ hp
            simp [last_allowed, h1, h2, hfa, h3, hfind, productiveName]
          · have hfind : List.find? productiveTx (tx :: rest) =
                List.find? productiveTx rest :=
              List.find?_cons_of_neg _ (by simp [productiveTx, h1, h2, hfa, h3])
            simp [last_allowed, h1, h2, hfa, h3, hfind, ih]
      · have hfind : List.find? productiveTx (tx :: rest) = List.find? productiveTx rest :=
          List.find?_cons_of_neg _ (by simp [productiveTx, h2])
        simp [last_allowed, h1, h2, hfind, ih]

/-! ### Invariant preservation -/

theorem InfoOk_after_add {d : Store} (hInv : Inv d) {cid : Nat} {w lbl : String}
    (hdup : ((load_chat d cid).addresses.any (fun e => e.addr == w)) = false)
    (hlen : (load_chat d cid).addresses.length < MAX_ADDRESS_PER_CHAT) :
    InfoOk ⟨(load_chat d cid).addresses ++ [Entry.dict ⟨w, lbl⟩],
      (load_chat d cid).interval⟩ := by
  obtain ⟨hl, hn⟩ := InfoOk_load hInv cid
  constructor
  · simp only [List.length_append, List.length_singleton]
    omega
  · rw [List.map_append]
    simp only [List.map_cons, List.map_nil]
    refine List.Nodup.append hn (List.nodup_singleton _) ?_
    rw [List.disjoint_singleton]
    intro hmem
    rcases List.mem_map.1 hmem with ⟨e, he, hew⟩
    have hany : (load_chat d cid).addresses.any (fun e => e.addr == w) = true :=
      List.any_eq_true.2 ⟨e, he, by rw [beq_iff_eq, hew]; rfl⟩
    rw [hdup] at hany
    cases hany

theorem Inv_add (d : Store) (cid : Nat) (a lbl : String) (hInv : Inv d) :
    Inv (add_addr_recv d cid a lbl).2 := by
  unfold add_addr_recv
  split
  · exact hInv
  · split
    · exact hInv
    · split
      · exact hInv
      · rename_i hdup hlen
        unfold set_addresses set_chat
        refine Inv_setKey hInv ?_
        exact InfoOk_after_add hInv (by simpa using hdup) (by omega)

theorem Inv_remove (d : Store) (cid : Nat) (ch : String) (hInv : Inv d) :
    Inv (rm_addr_recv d cid ch) := by
  unfold rm_addr_recv
  split
  · unfold set_addresses set_chat
    refine Inv_setKey hInv ?_
    obtain ⟨hl, hn⟩ := InfoOk_load hInv cid
    constructor
    · exact le_trans (List.length_filter_le _ _) hl
    · exact List.Nodup.sublist (List.Sublist.map _ (List.filter_sublist _)) hn
  · exact hInv

theorem Inv_setDelay (d : Store) (cid : Nat) (v : Option Rat) (hInv : Inv d) :
    Inv (set_delay_recv d cid v).2 := by
  cases v with
  | none => exact hInv
  | some v =>
    simp only [set_delay_recv]
    split
    · exact hInv
    · unfold set_interval set_chat
      refine Inv_setKey hInv ?_
      exact ⟨(InfoOk_load hInv cid).1, (InfoOk_load hInv cid).2⟩

theorem Inv_of_Reach : ∀ {d : Store}, Reach d → Inv d := by
  intro d h
  induction h with
  | init => intro p hp; cases hp
  | add d cid a lbl _ ih => exact Inv_add d cid a lbl ih
  | remove d cid ch _ ih => exact Inv_remove d cid ch ih
  | setDelay d cid v _ ih => exact Inv_setDelay d cid v ih

/-! ### C6: capacity and duplicate guards, store invariant -/

/-- C6: for a well-formed submitted address, `add_addr_recv` reports a
duplicate and leaves the store unchanged when the address is already
present, and reports the capacity limit and leaves the store unchanged when
the tenant already holds `MAX_ADDRESS_PER_CHAT` (5) subscriptions; and every
store reachable from the empty one through the mutating handlers keeps every
tenant at most 5 subscriptions with no duplicate addresses. -/
theorem C6_capacity_duplicate_invariant :
    (∀ (d : Store) (cid : Nat) (a lbl : String),
        strStartsWith (strToLower a) "0x" = true → (strToLower a).length = 42 →
        ((∃ e ∈ (load_chat d cid).addresses, e.addr = strToLower a) →
            add_addr_recv d cid a lbl = (.duplicate, d)) ∧
          ((¬ ∃ e ∈ (load_chat d cid).addresses, e.addr = strToLower a) →
            MAX_ADDRESS_PER_CHAT ≤ (load_chat d cid).addresses.length →
            add_addr_recv d cid a lbl = (.maxReached, d))) ∧
      ∀ d : Store, Reach d → Inv d := by
  refine ⟨?_, fun d h => Inv_of_Reach h⟩
  intro d cid a lbl h0 h42
  have hfmt : ¬ (¬ strStartsWith (strToLower a) "0x" ∨ (strToLower a).length ≠ 42) := by
    rw [h0]
    simp [h42]
  constructor
  · intro hdup
    obtain ⟨e, he, hea⟩ := hdup
    have hany : (load_chat d cid).addresses.any (fun e => e.addr == strToLower a) = true :=
      List.any_eq_true.2 ⟨e, he, by simp [hea]⟩
    unfold add_addr_recv
    rw [if_neg hfmt, if_pos hany]
  · intro hnd hcap
    have hany : (load_chat d cid).addresses.any (fun e => e.addr == strToLower a) = false := by
      rw [Bool.eq_false_iff]
      intro hx
      obtain ⟨e, he, hew⟩ := List.any_eq_true.1 hx
      exact hnd ⟨e, he, by simpa using hew⟩
    unfold add_addr_recv
    rw [if_neg hfmt, if_neg (by simp [hany]), if_pos hcap]

/-- C6 witness: tenant 9 of `d5` holds five subscriptions, so adding the
valid fresh address `addrA` is rejected with the capacity error and the
store is unchanged; the empty store satisfies the invariant. -/
theorem C6_witness :
    add_addr_recv d5 9 addrA "" = (.maxReached, d5) ∧ Inv [] := by
  constructor
  · exact ((C6_capacity_duplicate_invariant.1 d5 9 addrA "" (by decide)
      (by decide)).2 (by decide) (by decide))
  · exact C6_capacity_duplicate_invariant.2 [] Reach.init

/-! ### C8: interval guard -/

/-- C8: `set_delay_recv` rejects any requested interval strictly below 60
seconds and leaves the whole store unchanged; any value of at least 60
seconds is persisted as given. -/
theorem C8_interval_guard (d : Store) (cid : Nat) (v : Rat) :
    (v < 60 → set_delay_recv d cid (some v) = (.invalid, d)) ∧
      (60 ≤ v →
        set_delay_recv d cid (some v) = (.ok, set_interval d cid v) ∧
          (get_interval (set_interval d cid v) cid).1 = v) := by
  constructor
  · intro h
    simp [set_delay_recv, h]
  · intro h
    have h2 : ¬ v < 60 := not_lt.2 h
    refine ⟨by simp [set_delay_recv, h2], ?_⟩
    simp [get_interval, set_interval, set_chat, load_chat_setKey_self]

/-- C8 witness: a request of 30 seconds is rejected on the empty store, and
a request of 120 seconds is persisted. -/
theorem C8_witness :
    set_delay_recv [] 1 (some 30) = (.invalid, []) ∧
      (get_interval (set_interval [] 1 120) 1).1 = 120 := by
  constructor
  · exact (C8_interval_guard [] 1 30).1 (by norm_num)
  · exact ((C8_interval_guard [] 1 120).2 (by norm_num)).2

/-! ### C9: reads do not mutate -/

/-- C9: the read operations return the persisted collection unchanged, and
on a tenant id with no record they return the defaults (empty subscription
list, 300-second interval) without creating a record. -/
theorem C9_reads_pure (d : Store) (cid : Nat) :
    ((get_chat d cid).2 = d ∧ (get_addresses d cid).2 = d ∧
        (get_interval d cid).2 = d) ∧
      (lookupStore d cid = none →
        get_chat d cid = (defaultChat, d) ∧ get_addresses d cid = ([], d) ∧
          get_interval d cid = (300, d)) := by
  refine ⟨⟨rfl, rfl, rfl⟩, fun h => ?_⟩
  refine ⟨?_, ?_, ?_⟩ <;>
    simp [get_chat, get_addresses, get_interval, load_chat, h, defaultChat]

/-- C9 witness: reading tenant 1 from a store holding only tenant 2 yields
the default and the identical collection. -/
theorem C9_witness :
    get_addresses [(2, defaultChat)] 1 = ([], [(2, defaultChat)]) :=
  ((C9_reads_pure [(2, defaultChat)] 1).2 rfl).2.1

/-! ### C10: address normalisation -/

/-- C10: `add_addr_recv` lowercases the submitted address; any input whose
lowercased form does not start with `0x` or does not have length 42 is
rejected with the store unchanged; a successful add appends the lowercased
record; and after an address is added, any address with the same lowercased
form is not added again and leaves the store unchanged. -/
theorem C10_lowercase_validation :
    (∀ (d : Store) (cid : Nat) (a lbl : String),
        (¬ strStartsWith (strToLower a) "0x" ∨ (strToLower a).length ≠ 42) →
        add_addr_recv d cid a lbl = (.badAddress, d)) ∧
      (∀ (d d2 : Store) (cid : Nat) (a lbl : String),
        add_addr_recv d cid a lbl = (.added, d2) →
        (load_chat d2 cid).addresses =
          (load_chat d cid).addresses ++ [Entry.dict ⟨strToLower a, lbl⟩]) ∧
      ∀ (d d2 : Store) (cid : Nat) (a b lbla lblb : String),
        strToLower a = strToLower b →
        add_addr_recv d cid a lbla = (.added, d2) →
        (add_addr_recv d2 cid b lblb).1 ≠ .added ∧
          (add_addr_recv d2 cid b lblb).2 = d2 := by
  have hinv : ∀ (d d2 : Store) (cid : Nat) (a lbl : String),
      add_addr_recv d cid a lbl = (.added, d2) →
      (¬ (¬ strStartsWith (strToLower a) "0x" ∨ (strToLower a).length ≠ 42)) ∧
        d2 = set_addresses d cid
          ((load_chat d cid).addresses ++ [Entry.dict ⟨strToLower a, lbl⟩]) := by
    intro d d2 cid a lbl h
    unfold add_addr_recv at h
    split at h
    · cases h
    · split at h
      · cases h
      · split at h
        · cases h
        · rename_i hfmt hdup hcap
          simp at h
          exact ⟨hfmt, h.symm⟩
  refine ⟨?_, ?_, ?_⟩
  · intro d cid a lbl h
    unfold add_addr_recv
    rw [if_pos h]
  · intro d d2 cid a lbl h
    obtain ⟨hfmt, hd2⟩ := hinv d d2 cid a lbl h
    rw [hd2]
    unfold set_addresses set_chat
    rw [load_chat_setKey_self]
  · intro d d2 cid a b lbla lblb hab h
    obtain ⟨hfmt, hd2⟩ := hinv d d2 cid a lbla h
    have haddr : (load_chat d2 cid).addresses =
        (load_chat d cid).addresses ++ [Entry.dict ⟨strToLower a, lbla⟩] := by
      rw [hd2]
      unfold set_addresses set_chat
      rw [load_chat_setKey_self]
    have hany : (load_chat d2 cid).addresses.any
        (fun e => e.addr == strToLower b) = true := by
      refine List.any_eq_true.2 ⟨Entry.dict ⟨strToLower a, lbla⟩, ?_, ?_⟩
      · rw [haddr]
        simp
      · rw [beq_iff_eq, ← hab]
        rfl
    have hfmtb : ¬ (¬ strStartsWith (strToLower b) "0x" ∨ (strToLower b).length ≠ 42) := by
      rw [← hab]
      exact hfmt
    constructor
    · unfold add_addr_recv
      rw [if_neg hfmtb, if_pos hany]
      simp
    · unfold add_addr_recv
      rw [if_neg hfmtb, if_pos hany]

/-- C10 witness: the uppercase form of an already-added address is rejected
as a duplicate with the store unchanged. -/
theorem C10_witness :
    (add_addr_recv (add_addr_recv [] 7 addrAup "x").2 7 addrA "y").1 ≠ .added ∧
      (add_addr_recv (add_addr_recv [] 7 addrAup "x").2 7 addrA "y").2 =
        (add_addr_recv [] 7 addrAup "x").2 :=
  C10_lowercase_validation.2.2 [] (add_addr_recv [] 7 addrAup "x").2 7 addrAup addrA
    "x" "y" (by decide) (by decide)

/-! ### Fetch lemmas -/

theorem fetchTxsGo_sleep_bound (att : List TxAttempt) :
    ∀ (n s : Nat), s ∈ (fetchTxsGo att n).2 →
      ∃ k, n ≤ k ∧ k < n + att.length ∧ s = 3 * k := by
  induction att with
  | nil => intro n s h; simp [fetchTxsGo] at h
  | cons a rest ih =>
    intro n s h
    cases a with
    | ok txs => simp [fetchTxsGo] at h
    | nonList =>
      simp only [fetchTxsGo] at h
      obtain ⟨k, h1, h2, h3⟩ := ih (n + 1) s h
      exact ⟨k, by omega, by simp only [List.length_cons]; omega, h3⟩
    | exn =>
      simp only [fetchTxsGo] at h
      rcases List.mem_cons.1 h with h | h
      · exact ⟨n, le_refl n, by simp only [List.length_cons]; omega, h⟩
      · obtain ⟨k, h1, h2, h3⟩ := ih (n + 1) s h
        exact ⟨k, by omega, by simp only [List.length_cons]; omega, h3⟩

theorem fetchTxsGo_sleeps_sorted (att : List TxAttempt) :
    ∀ n, List.Pairwise (fun x y => x < y) (fetchTxsGo att n).2 := by
  induction att with
  | nil => intro n; simp [fetchTxsGo]
  | cons a rest ih =>
    intro n
    cases a with
    | ok txs => simp [fetchTxsGo]
    | nonList => simpa only [fetchTxsGo] using ih (n + 1)
    | exn =>
      simp only [fetchTxsGo]
      refine List.Pairwise.cons ?_ (ih (n + 1))
      intro s hs
      obtain ⟨k, h1, _, h3⟩ := fetchTxsGo_sleep_bound rest (n + 1) s hs
      omega

theorem fetchTxsGo_all_fail (att : List TxAttempt) :
    ∀ n, (∀ a ∈ att, a.isOk = false) → (fetchTxsGo att n).1 = [] := by
  induction att with
  | nil => intro n _; rfl
  | cons a rest ih =>
    intro n h
    cases a with
    | ok txs =>
      exact absurd (h _ (List.mem_cons_self _ _)) (by simp [TxAttempt.isOk])
    | nonList =>
      simpa only [fetchTxsGo] using
        ih (n + 1) (fun a ha => h a (List.mem_cons_of_mem _ ha))
    | exn =>
      simpa only [fetchTxsGo] using
        ih (n + 1) (fun a ha => h a (List.mem_cons_of_mem _ ha))

theorem fetchBalanceGo_all_fail (att : List BalAttempt) :
    ∀ n, (∀ b ∈ att, b.isOk = false) → (fetchBalanceGo att n).1 = 0 := by
  induction att with
  | nil => intro n _; rfl
  | cons b rest ih =>
    intro n h
    cases b with
    | ok w =>
      exact absurd (h _ (List.mem_cons_self _ _)) (by simp [BalAttempt.isOk])
    | nonNumeric =>
      simpa only [fetchBalanceGo] using
        ih (n + 1) (fun b hb => h b (List.mem_cons_of_mem _ hb))
    | exn =>
      simpa only [fetchBalanceGo] using
        ih (n + 1) (fun b hb => h b (List.mem_cons_of_mem _ hb))

/-! ### C7: fetch retry and backoff -/

/-- C7 counterexample: attempt 1 fails with a non-list `result`, attempt 2
succeeds, and the payload of attempt 2 is returned — but the observed sleep
list is empty: the backoff `time.sleep` of src/bot.py line 150 sits only in
the `except` handler, so a non-list failed attempt is retried with no
backoff between the attempts, while the claim asserts a backoff sleep
between failed attempts. -/
theorem C7_counterexample :
    fetch_txs .nonList (.ok [txA]) .exn = ([txA], []) ∧
      TxAttempt.isOk .nonList = false := ⟨rfl, rfl⟩

/-- C7 amended: `fetch_txs` and `fetch_balance` total out to a value on every
attempt outcome (never throw): at most 3 attempts; with all attempts failed
the degraded results are the empty list and zero balance; a successful
attempt returns its payload; every backoff sleep equals 3 seconds times the
1-based attempt number, the sleep sequence strictly increases so any second
observed delay exceeds the first; an attempt raising an exception (including
a non-numeric balance `result`) sleeps before the next attempt, while a
non-list transaction `result` is retried immediately without sleeping. -/
theorem C7_fetch_retry (a1 a2 a3 : TxAttempt) (b1 b2 b3 : BalAttempt) :
    (a1.isOk = false → a2.isOk = false → a3.isOk = false →
        (fetch_txs a1 a2 a3).1 = []) ∧
      (∀ ts, a1.isOk = false → a2.isOk = false →
        (fetch_txs a1 a2 (.ok ts)).1 = ts) ∧
      List.Pairwise (fun x y => x < y) (fetch_txs a1 a2 a3).2 ∧
      (∀ s ∈ (fetch_txs a1 a2 a3).2, s = 3 ∨ s = 6 ∨ s = 9) ∧
      fetch_txs .nonList a2 a3 = fetchTxsGo [a2, a3] 2 ∧
      (a1 = .exn → ∃ r, (fetch_txs a1 a2 a3).2 = 3 :: r) ∧
      (b1.isOk = false → b2.isOk = false → b3.isOk = false →
        (fetch_balance b1 b2 b3).1 = 0) ∧
      (∀ w, (fetch_balance (.ok w) b2 b3).1 = (w : Rat) / 1000000000000000000) ∧
      (b1 = .nonNumeric → ∃ r, (fetch_balance b1 b2 b3).2 = 3 :: r) := by
  refine ⟨?_, ?_, ?_, ?_, rfl, ?_, ?_, fun w => rfl, ?_⟩
  · intro h1 h2 h3
    refine fetchTxsGo_all_fail [a1, a2, a3] 1 ?_
    intro a ha
    simp only [List.mem_cons, List.not_mem_nil, or_false] at ha
    rcases ha with rfl | rfl | rfl <;> assumption
  · intro ts h1 h2
    cases a1 with
    | ok t => simp [TxAttempt.isOk] at h1
    | nonList =>
      cases a2 with
      | ok t => simp [TxAttempt.isOk] at h2
      | nonList => rfl
      | exn => rfl
    | exn =>
      cases a2 with
      | ok t => simp [TxAttempt.isOk] at h2
      | nonList => rfl
      | exn => rfl
  · exact fetchTxsGo_sleeps_sorted [a1, a2, a3] 1
  · intro s hs
    obtain ⟨k, h1, h2, h3⟩ := fetchTxsGo_sleep_bound [a1, a2, a3] 1 s hs
    simp only [List.length_cons, List.length_nil] at h2
    omega
  · intro h
    subst h
    exact ⟨(fetchTxsGo [a2, a3] 2).2, by simp [fetch_txs, fetchTxsGo]⟩
  · intro h1 h2 h3
    refine fetchBalanceGo_all_fail [b1, b2, b3] 1 ?_
    intro b hb
    simp only [List.mem_cons, List.not_mem_nil, or_false] at hb
    rcases hb with rfl | rfl | rfl <;> assumption
  · intro h
    subst h
    exact ⟨(fetchBalanceGo [b2, b3] 2).2, by simp [fetch_balance, fetchBalanceGo]⟩

/-- C7 witness: exception, non-list, exception exhausts the transaction
retries with a degraded empty result; a third-attempt success returns its
payload; three failed balance attempts yield zero. -/
theorem C7_witness :
    (fetch_txs .exn .nonList .exn).1 = [] ∧
      (fetch_txs .exn .nonList (.ok [txA])).1 = [txA] ∧
      (fetch_balance .exn .exn .exn).1 = 0 :=
  ⟨(C7_fetch_retry .exn .nonList .exn .exn .exn .exn).1 rfl rfl rfl,
    (C7_fetch_retry .exn .nonList .exn .exn .exn .exn).2.1 [txA] rfl rfl,
    (C7_fetch_retry .exn .nonList .exn .exn .exn .exn).2.2.2.2.2.2.1 rfl rfl rfl⟩

end Bot
